import Mathlib

/-!
# Verification of the AI-Travel-Planner chat/session state machine

Shallow embedding of `src/App.tsx`: the data model (`Message`, `Chat`, the
component's state hooks), the store / dispatcher operations
(`ensureDefaultChat`, `handleSend`, `handleClearChat`, `checkBackendHealth`,
the sidebar chat-selection click), and a small-step system over them used to
express reachable-state invariants.

JavaScript-specific behaviour is modelled faithfully:
* `Date.now()` values are abstract `Nat` parameters (`now`); ids are the
  decimal string `Nat.repr now` exactly as `Date.now().toString()` produces.
* string truthiness: `!s` is true exactly when `s` is empty, and
  `!activeChatId` is true when the id is `null` or the empty string;
* `x || y` on strings yields `y` when `x` is absent or empty (`jsOr`);
* the dispatcher's `await` is a suspension point: `handleSend` is split into
  the synchronous prefix (`handleSendStart`) and the continuation
  (`handleSendFinish`).  The continuation closes over the `activeChatId` and
  message id captured at dispatch start (`DispatchCtx`) while `setChats`
  functional updates act on the state current at response time.
-/

inductive Sender where
  | user
  | bot
deriving DecidableEq, Repr

/-- `interface Message` of App.tsx.  `timestamp : Nat` models the `Date`. -/
structure Message where
  id : String
  text : String
  sender : Sender
  timestamp : Nat
deriving DecidableEq, Repr

/-- `interface Chat` of App.tsx.  `createdAt : Nat` models the `Date`. -/
structure Chat where
  id : String
  title : String
  messages : List Message
  createdAt : Nat
deriving DecidableEq, Repr

inductive BackendStatus where
  | checking
  | ready
  | error
deriving DecidableEq, Repr

/-- The `useState` hooks of the `App` component (rendering-only state such as
`isSidebarOpen` and `greeting` is omitted: no claim mentions it and it feeds
back into no store or dispatcher operation). -/
structure AppState where
  chats : List Chat
  activeChatId : Option String
  message : String
  loading : Bool
  error : Option String
  backendStatus : BackendStatus
deriving DecidableEq, Repr

/-- Initial values of the `useState` hooks. -/
def initialState : AppState :=
  { chats := []
    activeChatId := none
    message := ""
    loading := false
    error := none
    backendStatus := .checking }

/-- JavaScript truthiness of a nullable string: `null` and `""` are falsy. -/
def optTruthy : Option String → Bool
  | none => false
  | some s => !(s == "")

/-- JavaScript `x || dflt` for a possibly-absent string field `x`:
absent and empty both fall through to the default. -/
def jsOr (x : Option String) (dflt : String) : String :=
  match x with
  | none => dflt
  | some s => if s == "" then dflt else s

/-- JavaScript `String.prototype.trim`: strips leading and trailing
whitespace.  Defined by structural recursion over the character list (the
core `String.trim` is equivalent on the claims' inputs but is defined by
well-founded recursion, which a kernel evaluation cannot unfold). -/
def jsTrim (s : String) : String :=
  ⟨((s.data.dropWhile Char.isWhitespace).reverse.dropWhile Char.isWhitespace).reverse⟩

/-- Outcome of the `fetch` of `sendToWatson`: either the promise rejects
(network failure, with the `Error`'s message), or an HTTP response arrives
with `res.ok` (2xx) flag and a JSON body carrying the optional `detail`
field and the `response` field. -/
inductive FetchOutcome where
  | response (ok : Bool) (detail : Option String) (reply : String)
  | netError (msg : String)
deriving DecidableEq, Repr

/-- `sendToWatson` (App.tsx lines 54-62): on a non-2xx response it throws
`new Error((await res.json()).detail || 'Request failed')`, otherwise it
returns `(await res.json()).response`.  The thrown `Error`'s message is the
`Except.error` payload. -/
def sendToWatson : FetchOutcome → Except String String
  | .netError m => .error m
  | .response ok detail reply =>
      if ok then .ok reply else .error (jsOr detail "Request failed")

/-- Outcome of the health-check `fetch`: a response with its `res.ok` flag
and the truthiness of the body's `api_ready` field (absent = falsy), or a
thrown failure (network error, or JSON parse failure). -/
inductive HealthOutcome where
  | response (ok : Bool) (apiReady : Bool)
  | thrown
deriving DecidableEq, Repr

/-- `checkBackendHealth` (App.tsx lines 46-52): `data` is the parsed body
when `res.ok`, else `null`; status becomes `ready` iff `data?.api_ready` is
truthy; any thrown failure gives `error`. -/
def checkBackendHealth : HealthOutcome → BackendStatus
  | .response ok apiReady => if ok && apiReady then .ready else .error
  | .thrown => .error

/-- The `setChats(prev => prev.map(chat => chat.id === cid ? {...chat,
messages: f(chat.messages)} : chat))` pattern used by both appends and by
`handleClearChat`. -/
def updateChat (cid : String) (f : List Message → List Message)
    (chats : List Chat) : List Chat :=
  chats.map fun c => if c.id == cid then { c with messages := f c.messages } else c

/-- Append one message to the chat(s) with id `cid` (the `setChats` calls of
`handleSend`). -/
def appendMessage (cid : String) (m : Message) (chats : List Chat) : List Chat :=
  updateChat cid (fun ms => ms ++ [m]) chats

/-- The `useEffect` on `[chats]` (App.tsx lines 64-71): when the collection
is empty, synthesize `{ id: Date.now().toString(), title: 'Chat',
messages: [], createdAt: new Date() }` and make it active. -/
def ensureDefaultChat (s : AppState) (now : Nat) : AppState :=
  if s.chats.length == 0 then
    { s with
        chats := [{ id := Nat.repr now, title := "Chat", messages := [], createdAt := now }]
        activeChatId := some (Nat.repr now) }
  else s

/-- The sidebar chat button's `onClick` (App.tsx line 161): one button exists
per element of `chats`, so the event always carries an existing chat's id;
the membership test models that event space. -/
def clickChat (s : AppState) (cid : String) : AppState :=
  if s.chats.any (fun c => c.id == cid) then { s with activeChatId := some cid } else s

/-- Editing the composer textarea (App.tsx lines 237-245): `onChange` sets
`message`; the control is disabled when no active chat exists
(`chats.find(c => c.id === activeChatId)` is undefined) or while loading. -/
def typeMessage (s : AppState) (t : String) : AppState :=
  if (s.chats.any fun c => some c.id == s.activeChatId) && !s.loading then
    { s with message := t }
  else s

/-- `handleClearChat` (App.tsx lines 107-112): guarded by `if (!activeChatId)
return;`, then empties the active chat's message array. -/
def handleClearChat (s : AppState) : AppState :=
  match s.activeChatId with
  | none => s
  | some cid =>
      if cid == "" then s
      else { s with chats := updateChat cid (fun _ => []) s.chats }

/-- The values the `handleSend` continuation closes over across its `await`:
the render's `activeChatId`, the generated user-message id, and the trimmed
text sent as the request payload. -/
structure DispatchCtx where
  chatId : String
  msgId : String
  sentText : String
deriving DecidableEq, Repr

/-- Synchronous prefix of `handleSend` (App.tsx lines 73-84), up to the
`await sendToWatson(...)`: the guard
`if (!message.trim() || loading || !activeChatId) return;`, then the user
message `{ id: Date.now().toString(), text: message.trim(), sender: 'user',
timestamp: new Date() }` is appended to the active chat, the composer is
cleared, `loading` is set, `error` reset.  Returns `none` when the guard
fires, otherwise the updated state and the closure context. -/
def handleSendStart (s : AppState) (now : Nat) : Option (AppState × DispatchCtx) :=
  match s.activeChatId with
  | none => none
  | some cid =>
      if jsTrim s.message == "" || s.loading || cid == "" then none
      else
        some
          ({ s with
              chats := appendMessage cid
                ⟨Nat.repr now, jsTrim s.message, .user, now⟩ s.chats
              message := ""
              loading := true
              error := none },
           ⟨cid, Nat.repr now, jsTrim s.message⟩)

/-- The bot message the continuation builds from the call's result: on
success `{ id: id + '_bot', text: reply, sender: 'bot' }`, on failure
`{ id: id + '_err', text: '⚠️ ' + msg, sender: 'bot' }`. -/
def finishMsg (ctx : DispatchCtx) (r : Except String String) (now : Nat) : Message :=
  match r with
  | .ok reply => ⟨ctx.msgId ++ "_bot", reply, .bot, now⟩
  | .error m => ⟨ctx.msgId ++ "_err", "⚠️ " ++ m, .bot, now⟩

/-- Continuation of `handleSend` (App.tsx lines 85-100): runs against the
state current at response time (`setChats` uses functional updates; `setError`
fires only in the catch branch), appends the bot / error message to the chat
whose id the closure captured, and finally clears `loading`. -/
def handleSendFinish (ctx : DispatchCtx) (r : Except String String)
    (s : AppState) (now : Nat) : AppState :=
  match r with
  | .ok reply =>
      { s with
          chats := appendMessage ctx.chatId (finishMsg ctx (.ok reply) now) s.chats
          loading := false }
  | .error m =>
      { s with
          error := some m
          chats := appendMessage ctx.chatId (finishMsg ctx (.error m) now) s.chats
          loading := false }

/-- A whole dispatch in which nothing else runs between the `await` and the
continuation: start at time `now1`, the network call resolves to `o`, the
continuation runs at time `now2`. -/
def handleSend (s : AppState) (now1 : Nat) (o : FetchOutcome) (now2 : Nat) : AppState :=
  match handleSendStart s now1 with
  | none => s
  | some (s1, ctx) => handleSendFinish ctx (sendToWatson o) s1 now2

/-! ## The event system

`SysState` pairs the component state with the (at most one) suspended
dispatch continuation; `Act`/`stepA` enumerate every event of the UI that
touches this state, and `Reachable` closes the initial state under them. -/

structure SysState where
  app : AppState
  inflight : Option DispatchCtx
deriving DecidableEq, Repr

def initSys : SysState := { app := initialState, inflight := none }

inductive Act where
  | ensureDefault (now : Nat)
  | clickChat (cid : String)
  | clearChat
  | typeMessage (t : String)
  | sendStart (now : Nat)
  | sendFinish (o : FetchOutcome) (now : Nat)
  | healthResolve (o : HealthOutcome)
deriving DecidableEq, Repr

def stepA : Act → SysState → SysState
  | .ensureDefault now, s => { s with app := ensureDefaultChat s.app now }
  | .clickChat cid, s => { s with app := clickChat s.app cid }
  | .clearChat, s => { s with app := handleClearChat s.app }
  | .typeMessage t, s => { s with app := typeMessage s.app t }
  | .sendStart now, s =>
      match handleSendStart s.app now with
      | none => s
      | some (a, ctx) => { app := a, inflight := some ctx }
  | .sendFinish o now, s =>
      match s.inflight with
      | none => s
      | some ctx => { app := handleSendFinish ctx (sendToWatson o) s.app now, inflight := none }
  | .healthResolve o, s =>
      { s with app := { s.app with backendStatus := checkBackendHealth o } }

inductive Reachable : SysState → Prop
  | init : Reachable initSys
  | step {s : SysState} (a : Act) : Reachable s → Reachable (stepA a s)

example : (ensureDefaultChat initialState 5).chats.length = 1 := by decide
example : handleSend initialState 3 (.response true none "hi") 4 = initialState := by decide

/-! ## Facts about `Nat.repr` (the model of `Date.now().toString()`)

Message ids are the decimal strings `Nat.repr now` (user messages) and
`Nat.repr now ++ "_bot"` / `++ "_err"` (bot messages).  To reason about their
distinctness we prove that `Nat.repr` is injective and produces only digit
characters. -/

theorem toDigitsCore_shift (b : Nat) : ∀ (fuel n : Nat) (ds : List Char),
    Nat.toDigitsCore b fuel n ds = Nat.toDigitsCore b fuel n [] ++ ds := by
  intro fuel
  induction fuel with
  | zero => intro n ds; simp [Nat.toDigitsCore]
  | succ fuel ih =>
    intro n ds
    simp only [Nat.toDigitsCore]
    by_cases h : n / b = 0
    · simp [h]
    · rw [if_neg h, if_neg h, ih _ (Nat.digitChar (n % b) :: ds),
        ih _ [Nat.digitChar (n % b)], List.append_assoc, List.singleton_append]

theorem toDigitsCore_fuel : ∀ (n fuel fuel' : Nat), n < fuel → n < fuel' →
    Nat.toDigitsCore 10 fuel n [] = Nat.toDigitsCore 10 fuel' n [] := by
  intro n
  induction n using Nat.strong_induction_on with
  | _ n ih =>
    intro fuel fuel' h h'
    match fuel, h, fuel', h' with
    | fuel + 1, h, fuel' + 1, h' =>
      simp only [Nat.toDigitsCore]
      by_cases h0 : n / 10 = 0
      · simp [h0]
      · have hn : 0 < n := by
          rcases Nat.eq_zero_or_pos n with rfl | hp
          · simp at h0
          · exact hp
        have hd : n / 10 < n := Nat.div_lt_self hn (by omega)
        rw [if_neg h0, if_neg h0, toDigitsCore_shift, toDigitsCore_shift 10 fuel']
        rw [ih (n / 10) hd fuel fuel' (by omega) (by omega)]

/-- One-step recurrence of `Nat.toDigits 10` for numbers of ≥ 2 digits. -/
theorem toDigits_ten_rec (n : Nat) (h : ¬ n / 10 = 0) :
    Nat.toDigits 10 n = Nat.toDigits 10 (n / 10) ++ [Nat.digitChar (n % 10)] := by
  have hn : 0 < n := by
    rcases Nat.eq_zero_or_pos n with rfl | hp
    · simp at h
    · exact hp
  have hd : n / 10 < n := Nat.div_lt_self hn (by omega)
  show Nat.toDigitsCore 10 (n + 1) n [] = _
  simp only [Nat.toDigitsCore]
  rw [if_neg h, toDigitsCore_shift]
  rw [show Nat.toDigits 10 (n / 10) = Nat.toDigitsCore 10 (n / 10 + 1) (n / 10) [] from rfl]
  rw [toDigitsCore_fuel (n / 10) n (n / 10 + 1) (by omega) (by omega)]

theorem toDigits_ten_base (n : Nat) (h : n / 10 = 0) :
    Nat.toDigits 10 n = [Nat.digitChar (n % 10)] := by
  show Nat.toDigitsCore 10 (n + 1) n [] = _
  simp only [Nat.toDigitsCore]
  rw [if_pos h]

/-- Value of a most-significant-first list of decimal digit characters. -/
def digitsVal : List Char → Nat
  | [] => 0
  | c :: cs => (c.toNat - '0'.toNat) * 10 ^ cs.length + digitsVal cs

theorem digitsVal_append_singleton (xs : List Char) (c : Char) :
    digitsVal (xs ++ [c]) = 10 * digitsVal xs + (c.toNat - '0'.toNat) := by
  induction xs with
  | nil => simp [digitsVal]
  | cons x xs ih =>
    simp only [List.cons_append, digitsVal, ih, List.append_eq, List.length_append,
      List.length_cons, List.length_nil, pow_succ]
    ring

theorem digitChar_val (n : Nat) (h : n < 10) :
    (Nat.digitChar n).toNat - '0'.toNat = n := by
  have key : ∀ m : Fin 10, (Nat.digitChar m.val).toNat - '0'.toNat = m.val := by decide
  exact key ⟨n, h⟩

theorem digitChar_isDigit (n : Nat) (h : n < 10) : (Nat.digitChar n).isDigit = true := by
  have key : ∀ m : Fin 10, (Nat.digitChar m.val).isDigit = true := by decide
  exact key ⟨n, h⟩

theorem digitsVal_toDigits (n : Nat) : digitsVal (Nat.toDigits 10 n) = n := by
  induction n using Nat.strong_induction_on with
  | _ n ih =>
    by_cases h : n / 10 = 0
    · have hn : n < 10 := by omega
      rw [toDigits_ten_base n h]
      simp only [digitsVal, List.length_nil, pow_zero, mul_one, add_zero]
      rw [digitChar_val (n % 10) (Nat.mod_lt _ (by omega))]
      omega
    · have hn : 0 < n := by
        rcases Nat.eq_zero_or_pos n with rfl | hp
        · simp at h
        · exact hp
      rw [toDigits_ten_rec n h, digitsVal_append_singleton,
        ih (n / 10) (Nat.div_lt_self hn (by omega)),
        digitChar_val (n % 10) (Nat.mod_lt _ (by omega))]
      omega

theorem toDigits_ten_isDigit (n : Nat) : ∀ c ∈ Nat.toDigits 10 n, c.isDigit = true := by
  induction n using Nat.strong_induction_on with
  | _ n ih =>
    by_cases h : n / 10 = 0
    · rw [toDigits_ten_base n h]
      intro c hc
      rw [List.mem_singleton] at hc
      subst hc
      exact digitChar_isDigit (n % 10) (Nat.mod_lt _ (by omega))
    · have hn : 0 < n := by
        rcases Nat.eq_zero_or_pos n with rfl | hp
        · simp at h
        · exact hp
      rw [toDigits_ten_rec n h]
      intro c hc
      rcases List.mem_append.1 hc with hc | hc
      · exact ih (n / 10) (Nat.div_lt_self hn (by omega)) c hc
      · rw [List.mem_singleton] at hc
        subst hc
        exact digitChar_isDigit (n % 10) (Nat.mod_lt _ (by omega))

theorem repr_data (n : Nat) : (Nat.repr n).data = Nat.toDigits 10 n := rfl

theorem repr_inj {m n : Nat} (h : Nat.repr m = Nat.repr n) : m = n := by
  have hd : Nat.toDigits 10 m = Nat.toDigits 10 n := by
    rw [← repr_data, ← repr_data, h]
  calc m = digitsVal (Nat.toDigits 10 m) := (digitsVal_toDigits m).symm
    _ = digitsVal (Nat.toDigits 10 n) := by rw [hd]
    _ = n := digitsVal_toDigits n

theorem repr_isDigit (n : Nat) : ∀ c ∈ (Nat.repr n).data, c.isDigit = true := by
  rw [repr_data]; exact toDigits_ten_isDigit n

/-- A decimal numeral is never a decimal numeral followed by a suffix that
contains an underscore. -/
theorem repr_ne_append_underscore (m n : Nat) (sfx : String) (hu : '_' ∈ sfx.data) :
    Nat.repr m ≠ Nat.repr n ++ sfx := by
  intro h
  have : '_' ∈ (Nat.repr m).data := by
    rw [h, String.data_append]
    exact List.mem_append.2 (Or.inr hu)
  have := repr_isDigit m '_' this
  simp at this

theorem string_ne_append_of_ne_empty (a b : String) (h : b ≠ "") : a ≠ a ++ b := by
  intro he
  apply h
  have : a.data = a.data ++ b.data := by
    conv_lhs => rw [he]
    rw [String.data_append]
  have hb : b.data = [] := by
    have := congrArg List.length this
    simp at this
    exact List.eq_nil_of_length_eq_zero this
  exact String.ext hb

theorem string_append_inj {a b c d : String} (h : a ++ b = c ++ d)
    (hl : b.data.length = d.data.length) : a = c ∧ b = d := by
  have hd : a.data ++ b.data = c.data ++ d.data := by
    rw [← String.data_append, ← String.data_append, h]
  obtain ⟨h1, h2⟩ := List.append_inj' hd hl
  exact ⟨String.ext h1, String.ext h2⟩

/-! ## Elementary lemmas about the operations -/

theorem updateChat_length (cid : String) (f : List Message → List Message) (l : List Chat) :
    (updateChat cid f l).length = l.length := by
  simp [updateChat]

theorem updateChat_nil_iff {cid : String} {f : List Message → List Message} {l : List Chat} :
    updateChat cid f l = [] ↔ l = [] := by
  constructor
  · intro h
    have := congrArg List.length h
    rw [updateChat_length] at this
    exact List.eq_nil_of_length_eq_zero this
  · intro h; subst h; rfl

theorem mem_updateChat {cid : String} {f : List Message → List Message} {l : List Chat}
    {c' : Chat} (h : c' ∈ updateChat cid f l) :
    (∃ c ∈ l, c' = { c with messages := f c.messages }) ∨ c' ∈ l := by
  rw [updateChat, List.mem_map] at h
  obtain ⟨c, hc, he⟩ := h
  by_cases hid : (c.id == cid) = true
  · rw [if_pos hid] at he
    exact Or.inl ⟨c, hc, he.symm⟩
  · rw [if_neg hid] at he
    exact Or.inr (he ▸ hc)

theorem updateChat_exists_id {cid0 : Option String} {cid : String}
    {f : List Message → List Message} {l : List Chat}
    (h : ∃ c ∈ l, cid0 = some c.id) : ∃ c ∈ updateChat cid f l, cid0 = some c.id := by
  obtain ⟨c, hc, hid⟩ := h
  refine ⟨if c.id == cid then { c with messages := f c.messages } else c,
    List.mem_map_of_mem _ hc, ?_⟩
  split <;> exact hid

/-! Shape lemmas: each operation, with its guard settled, rewritten to an
explicit record. -/

theorem ensureDefaultChat_of_empty {s : AppState} (h : s.chats = []) (now : Nat) :
    ensureDefaultChat s now =
      { s with
          chats := [{ id := Nat.repr now, title := "Chat", messages := [], createdAt := now }]
          activeChatId := some (Nat.repr now) } := by
  simp [ensureDefaultChat, h]

theorem ensureDefaultChat_of_nonempty {s : AppState} (h : s.chats ≠ []) (now : Nat) :
    ensureDefaultChat s now = s := by
  have : s.chats.length ≠ 0 := fun hl => h (List.eq_nil_of_length_eq_zero hl)
  simp [ensureDefaultChat, this]

theorem clickChat_of_any {s : AppState} {cid : String}
    (h : s.chats.any (fun c => c.id == cid) = true) :
    clickChat s cid = { s with activeChatId := some cid } := by
  simp [clickChat, h]

theorem clickChat_of_not_any {s : AppState} {cid : String}
    (h : s.chats.any (fun c => c.id == cid) = false) :
    clickChat s cid = s := by
  simp [clickChat, h]

theorem typeMessage_of_enabled {s : AppState} {t : String}
    (h : ((s.chats.any fun c => some c.id == s.activeChatId) && !s.loading) = true) :
    typeMessage s t = { s with message := t } := by
  simp only [typeMessage, h, if_true]

theorem typeMessage_of_disabled {s : AppState} {t : String}
    (h : ((s.chats.any fun c => some c.id == s.activeChatId) && !s.loading) = false) :
    typeMessage s t = s := by
  simp only [typeMessage, h, Bool.false_eq_true, if_false]

theorem handleClearChat_of_none {s : AppState} (h : s.activeChatId = none) :
    handleClearChat s = s := by
  simp [handleClearChat, h]

theorem handleClearChat_of_falsy {s : AppState} (h : s.activeChatId = some "") :
    handleClearChat s = s := by
  simp [handleClearChat, h]

theorem handleClearChat_of_active {s : AppState} {cid : String}
    (h : s.activeChatId = some cid) (hne : cid ≠ "") :
    handleClearChat s = { s with chats := updateChat cid (fun _ => []) s.chats } := by
  simp [handleClearChat, h, hne]

theorem stepA_ensureDefault (now : Nat) (s : SysState) :
    stepA (.ensureDefault now) s = { s with app := ensureDefaultChat s.app now } := rfl

theorem stepA_clickChat (cid : String) (s : SysState) :
    stepA (.clickChat cid) s = { s with app := clickChat s.app cid } := rfl

theorem stepA_clearChat (s : SysState) :
    stepA .clearChat s = { s with app := handleClearChat s.app } := rfl

theorem stepA_typeMessage (t : String) (s : SysState) :
    stepA (.typeMessage t) s = { s with app := typeMessage s.app t } := rfl

theorem stepA_healthResolve (o : HealthOutcome) (s : SysState) :
    stepA (.healthResolve o) s =
      { s with app := { s.app with backendStatus := checkBackendHealth o } } := rfl

theorem stepA_sendStart_of_none {s : SysState} {now : Nat}
    (h : handleSendStart s.app now = none) : stepA (.sendStart now) s = s := by
  simp [stepA, h]

theorem stepA_sendStart_of_some {s : SysState} {now : Nat} {a : AppState} {ctx : DispatchCtx}
    (h : handleSendStart s.app now = some (a, ctx)) :
    stepA (.sendStart now) s = { app := a, inflight := some ctx } := by
  simp [stepA, h]

theorem stepA_sendFinish_of_none {s : SysState} {o : FetchOutcome} {now : Nat}
    (h : s.inflight = none) : stepA (.sendFinish o now) s = s := by
  simp [stepA, h]

theorem stepA_sendFinish_of_some {s : SysState} {o : FetchOutcome} {now : Nat}
    {ctx : DispatchCtx} (h : s.inflight = some ctx) :
    stepA (.sendFinish o now) s =
      { app := handleSendFinish ctx (sendToWatson o) s.app now, inflight := none } := by
  simp [stepA, h]

theorem handleSendFinish_loading (ctx : DispatchCtx) (r : Except String String)
    (s : AppState) (now : Nat) : (handleSendFinish ctx r s now).loading = false := by
  cases r <;> rfl

theorem handleSendFinish_chats (ctx : DispatchCtx) (r : Except String String)
    (s : AppState) (now : Nat) :
    (handleSendFinish ctx r s now).chats =
      appendMessage ctx.chatId (finishMsg ctx r now) s.chats := by
  cases r <;> rfl

theorem handleSendFinish_activeChatId (ctx : DispatchCtx) (r : Except String String)
    (s : AppState) (now : Nat) :
    (handleSendFinish ctx r s now).activeChatId = s.activeChatId := by
  cases r <;> rfl

/-- Inversion of a successful synchronous dispatch prefix. -/
theorem handleSendStart_some {s : AppState} {now : Nat} {a : AppState} {ctx : DispatchCtx}
    (h : handleSendStart s now = some (a, ctx)) :
    s.activeChatId = some ctx.chatId ∧ ctx.chatId ≠ "" ∧ jsTrim s.message ≠ "" ∧
      s.loading = false ∧ ctx.msgId = Nat.repr now ∧ ctx.sentText = jsTrim s.message ∧
      a = { s with
              chats := appendMessage ctx.chatId
                ⟨Nat.repr now, jsTrim s.message, .user, now⟩ s.chats
              message := ""
              loading := true
              error := none } := by
  cases hact : s.activeChatId with
  | none => simp [handleSendStart, hact] at h
  | some cid =>
    simp only [handleSendStart, hact] at h
    by_cases hg : (jsTrim s.message == "" || s.loading || (cid == "")) = true
    · rw [if_pos hg] at h; cases h
    · rw [if_neg hg] at h
      simp only [Option.some.injEq, Prod.mk.injEq] at h
      obtain ⟨ha, hctx⟩ := h
      subst hctx
      have h1 : ¬ jsTrim s.message = "" := fun he => hg (by simp [he])
      have h3 : ¬ cid = "" := fun he => hg (by simp [he])
      have h2 : s.loading = false := by
        cases hl : s.loading
        · rfl
        · exact absurd (by simp [hl]) hg
      exact ⟨rfl, h3, h1, h2, rfl, rfl, ha.symm⟩

/-- The guard of `handleSend` fires (and the dispatch is a no-op) exactly
when the trimmed composer is empty, a send is loading, or `activeChatId`
is falsy. -/
theorem handleSendStart_none {s : AppState} {now : Nat}
    (h : jsTrim s.message = "" ∨ s.loading = true ∨
      s.activeChatId = none ∨ s.activeChatId = some "") :
    handleSendStart s now = none := by
  cases hact : s.activeChatId with
  | none => simp [handleSendStart, hact]
  | some cid =>
    simp only [handleSendStart, hact]
    rcases h with h | h | h | h
    · rw [if_pos (by simp [h])]
    · rw [if_pos (by simp [h])]
    · rw [hact] at h; cases h
    · rw [hact] at h
      simp only [Option.some.injEq] at h
      rw [if_pos (by simp [h])]

/-! ## Invariant: `activeChatId` always references an existing chat -/

/-- Claim-C7 style invariant on system states: an empty collection has no
active chat, a non-empty one has an active id naming one of its chats. -/
def ActiveOk (s : SysState) : Prop :=
  (s.app.chats = [] → s.app.activeChatId = none) ∧
  (s.app.chats ≠ [] → ∃ c ∈ s.app.chats, s.app.activeChatId = some c.id)

theorem activeOk_step (a : Act) (s : SysState) (h : ActiveOk s) : ActiveOk (stepA a s) := by
  obtain ⟨h1, h2⟩ := h
  cases a with
  | ensureDefault now =>
    rw [stepA_ensureDefault]
    by_cases hch : s.app.chats = []
    · rw [ensureDefaultChat_of_empty hch]
      constructor
      · intro hc; cases hc
      · intro _
        exact ⟨_, List.mem_singleton_self _, rfl⟩
    · rw [ensureDefaultChat_of_nonempty hch]
      exact ⟨h1, h2⟩
  | clickChat cid =>
    rw [stepA_clickChat]
    cases hany : s.app.chats.any (fun c => c.id == cid) with
    | false =>
      rw [clickChat_of_not_any hany]
      exact ⟨h1, h2⟩
    | true =>
      rw [clickChat_of_any hany]
      constructor
      · intro hc
        rw [hc] at hany
        cases hany
      · intro _
        rw [List.any_eq_true] at hany
        obtain ⟨c, hc, hcid⟩ := hany
        rw [beq_iff_eq] at hcid
        exact ⟨c, hc, by rw [hcid]⟩
  | clearChat =>
    rw [stepA_clearChat]
    cases hact : s.app.activeChatId with
    | none =>
      rw [handleClearChat_of_none hact]
      exact ⟨h1, h2⟩
    | some cid =>
      by_cases hcid : cid = ""
      · subst hcid
        rw [handleClearChat_of_falsy hact]
        exact ⟨h1, h2⟩
      · rw [handleClearChat_of_active hact hcid]
        constructor
        · intro hc
          have hc' : updateChat cid (fun _ => []) s.app.chats = [] := hc
          show s.app.activeChatId = none
          exact h1 (updateChat_nil_iff.1 hc')
        · intro hne
          show ∃ c ∈ updateChat cid (fun _ => []) s.app.chats, s.app.activeChatId = some c.id
          apply updateChat_exists_id
          apply h2
          intro hnil
          apply hne
          show updateChat cid (fun _ => []) s.app.chats = []
          rw [hnil]
          rfl
  | typeMessage t =>
    rw [stepA_typeMessage]
    cases hen : ((s.app.chats.any fun c => some c.id == s.app.activeChatId) && !s.app.loading) with
    | false =>
      rw [typeMessage_of_disabled hen]
      exact ⟨h1, h2⟩
    | true =>
      rw [typeMessage_of_enabled hen]
      exact ⟨h1, h2⟩
  | sendStart now =>
    cases hs : handleSendStart s.app now with
    | none =>
      rw [stepA_sendStart_of_none hs]
      exact ⟨h1, h2⟩
    | some p =>
      obtain ⟨a', ctx⟩ := p
      obtain ⟨hact, hne, htrim, hload, hmsg, hsent, ha⟩ := handleSendStart_some hs
      rw [stepA_sendStart_of_some hs, ha]
      constructor
      · intro hc
        have hc' : updateChat ctx.chatId
            (fun ms => ms ++ [(⟨Nat.repr now, jsTrim s.app.message, .user, now⟩ : Message)])
            s.app.chats = [] := hc
        show s.app.activeChatId = none
        exact h1 (updateChat_nil_iff.1 hc')
      · intro hne'
        show ∃ c ∈ updateChat ctx.chatId
            (fun ms => ms ++ [(⟨Nat.repr now, jsTrim s.app.message, .user, now⟩ : Message)]) s.app.chats,
          s.app.activeChatId = some c.id
        apply updateChat_exists_id
        apply h2
        intro hnil
        apply hne'
        show updateChat ctx.chatId
          (fun ms => ms ++ [(⟨Nat.repr now, jsTrim s.app.message, .user, now⟩ : Message)]) s.app.chats = []
        rw [hnil]
        rfl
  | sendFinish o now =>
    cases hin : s.inflight with
    | none =>
      rw [stepA_sendFinish_of_none hin]
      exact ⟨h1, h2⟩
    | some ctx =>
      rw [stepA_sendFinish_of_some hin]
      constructor
      · intro hc
        rw [show ({ app := handleSendFinish ctx (sendToWatson o) s.app now, inflight := none } : SysState).app.chats = (handleSendFinish ctx (sendToWatson o) s.app now).chats from rfl, handleSendFinish_chats] at hc
        show (handleSendFinish ctx (sendToWatson o) s.app now).activeChatId = none
        rw [handleSendFinish_activeChatId]
        exact h1 (updateChat_nil_iff.1 hc)
      · intro hne
        show ∃ c ∈ (handleSendFinish ctx (sendToWatson o) s.app now).chats,
          (handleSendFinish ctx (sendToWatson o) s.app now).activeChatId = some c.id
        rw [handleSendFinish_chats, handleSendFinish_activeChatId]
        apply updateChat_exists_id
        apply h2
        intro hnil
        apply hne
        show (handleSendFinish ctx (sendToWatson o) s.app now).chats = []
        rw [handleSendFinish_chats, hnil]
        rfl
  | healthResolve o =>
    rw [stepA_healthResolve]
    exact ⟨h1, h2⟩

theorem reachable_activeOk {s : SysState} (h : Reachable s) : ActiveOk s := by
  induction h with
  | init =>
    constructor
    · intro _; rfl
    · intro hne; exact absurd rfl hne
  | step a _ ih => exact activeOk_step a _ ih

/-! ## Invariant: `loading` marks exactly the in-flight dispatch -/

def LoadOk (s : SysState) : Prop := s.app.loading = s.inflight.isSome

theorem ensureDefaultChat_loading (s : AppState) (now : Nat) :
    (ensureDefaultChat s now).loading = s.loading := by
  by_cases h : s.chats = []
  · rw [ensureDefaultChat_of_empty h]
  · rw [ensureDefaultChat_of_nonempty h]

theorem clickChat_loading (s : AppState) (cid : String) :
    (clickChat s cid).loading = s.loading := by
  cases h : s.chats.any (fun c => c.id == cid) with
  | false => rw [clickChat_of_not_any h]
  | true => rw [clickChat_of_any h]

theorem typeMessage_loading (s : AppState) (t : String) :
    (typeMessage s t).loading = s.loading := by
  cases h : ((s.chats.any fun c => some c.id == s.activeChatId) && !s.loading) with
  | false => rw [typeMessage_of_disabled h]
  | true => rw [typeMessage_of_enabled h]

theorem handleClearChat_loading (s : AppState) :
    (handleClearChat s).loading = s.loading := by
  cases hact : s.activeChatId with
  | none => rw [handleClearChat_of_none hact]
  | some cid =>
    by_cases hcid : cid = ""
    · subst hcid; rw [handleClearChat_of_falsy hact]
    · rw [handleClearChat_of_active hact hcid]

theorem loadOk_step (a : Act) (s : SysState) (h : LoadOk s) : LoadOk (stepA a s) := by
  cases a with
  | ensureDefault now =>
    show (ensureDefaultChat s.app now).loading = s.inflight.isSome
    rw [ensureDefaultChat_loading]
    exact h
  | clickChat cid =>
    show (clickChat s.app cid).loading = s.inflight.isSome
    rw [clickChat_loading]
    exact h
  | clearChat =>
    show (handleClearChat s.app).loading = s.inflight.isSome
    rw [handleClearChat_loading]
    exact h
  | typeMessage t =>
    show (typeMessage s.app t).loading = s.inflight.isSome
    rw [typeMessage_loading]
    exact h
  | sendStart now =>
    cases hs : handleSendStart s.app now with
    | none => rw [stepA_sendStart_of_none hs]; exact h
    | some p =>
      obtain ⟨a', ctx⟩ := p
      obtain ⟨_, _, _, _, _, _, ha⟩ := handleSendStart_some hs
      rw [stepA_sendStart_of_some hs, ha]
      rfl
  | sendFinish o now =>
    cases hin : s.inflight with
    | none => rw [stepA_sendFinish_of_none hin]; exact h
    | some ctx =>
      rw [stepA_sendFinish_of_some hin]
      show (handleSendFinish ctx (sendToWatson o) s.app now).loading = (none : Option DispatchCtx).isSome
      rw [handleSendFinish_loading]
      rfl
  | healthResolve o => exact h

theorem reachable_loadOk {s : SysState} (h : Reachable s) : LoadOk s := by
  induction h with
  | init => rfl
  | step a _ ih => exact loadOk_step a _ ih

/-! ## Invariant: uniqueness of message ids under fresh timestamps

Message ids come from `Date.now()`: the user id is `Nat.repr t` for the
dispatch's start instant `t`, the paired bot id is that string suffixed with
`"_bot"` or `"_err"`.  `TReach` refines `Reachable` with the assumption that
each dispatch start observes a clock value at least as large as a bound that
then moves past it — i.e. no two dispatches read the same millisecond.
Under that assumption ids never repeat within a chat; `c10` below shows the
assumption is necessary. -/

/-- The id `i` was minted by a dispatch whose start instant was below `T`. -/
def MsgIdOk (T : Nat) (i : String) : Prop :=
  ∃ t, t < T ∧ (i = Nat.repr t ∨ i = Nat.repr t ++ "_bot" ∨ i = Nat.repr t ++ "_err")

def ChatMsgsOk (T : Nat) (c : Chat) : Prop :=
  (c.messages.map Message.id).Nodup ∧ ∀ m ∈ c.messages, MsgIdOk T m.id

/-- The pending continuation, if any, was started at some instant `t < T`,
and every id already in the store is either older than `t` or is exactly the
pending dispatch's own user-message id. -/
def InflightOk (s : SysState) (T : Nat) : Prop :=
  ∀ ctx, s.inflight = some ctx → ∃ t, t < T ∧ ctx.msgId = Nat.repr t ∧
    ∀ c ∈ s.app.chats, ∀ m ∈ c.messages, MsgIdOk t m.id ∨ m.id = Nat.repr t

def IdInv (s : SysState) (T : Nat) : Prop :=
  (∀ c ∈ s.app.chats, ChatMsgsOk T c) ∧ InflightOk s T

/-- Runs in which every dispatch start reads a clock value `now` no smaller
than the current bound, which then advances past it: successive dispatches
observe strictly increasing `Date.now()` values. -/
inductive TReach : SysState → Nat → Prop
  | init : TReach initSys 0
  | ensureDefault {s T} (now : Nat) : TReach s T → TReach (stepA (.ensureDefault now) s) T
  | clickChat {s T} (cid : String) : TReach s T → TReach (stepA (.clickChat cid) s) T
  | clearChat {s T} : TReach s T → TReach (stepA .clearChat s) T
  | typeMessage {s T} (t : String) : TReach s T → TReach (stepA (.typeMessage t) s) T
  | sendStart {s T} (now : Nat) :
      TReach s T → T ≤ now → TReach (stepA (.sendStart now) s) (now + 1)
  | sendFinish {s T} (o : FetchOutcome) (now : Nat) :
      TReach s T → TReach (stepA (.sendFinish o now) s) T
  | healthResolve {s T} (o : HealthOutcome) : TReach s T → TReach (stepA (.healthResolve o) s) T

theorem msgIdOk_mono {T T' : Nat} {i : String} (h : MsgIdOk T i) (hle : T ≤ T') :
    MsgIdOk T' i := by
  obtain ⟨t, ht, hi⟩ := h
  exact ⟨t, by omega, hi⟩

theorem chatMsgsOk_mono {T T' : Nat} {c : Chat} (h : ChatMsgsOk T c) (hle : T ≤ T') :
    ChatMsgsOk T' c :=
  ⟨h.1, fun m hm => msgIdOk_mono (h.2 m hm) hle⟩

/-- An id minted strictly before instant `now` differs from the decimal
string of `now`. -/
theorem msgIdOk_ne_repr {T now : Nat} {i : String} (h : MsgIdOk T i) (hle : T ≤ now) :
    i ≠ Nat.repr now := by
  obtain ⟨t, ht, hi | hi | hi⟩ := h <;> subst hi <;> intro he
  · exact absurd (repr_inj he) (by omega)
  · exact repr_ne_append_underscore now t "_bot" (by decide) he.symm
  · exact repr_ne_append_underscore now t "_err" (by decide) he.symm

/-- A bot id minted at instant `t` differs from every id minted strictly
before `t` and from its own user message's id. -/
theorem bot_id_fresh {t : Nat} {sfx : String} (hs : sfx = "_bot" ∨ sfx = "_err")
    {i : String} (h : MsgIdOk t i ∨ i = Nat.repr t) : i ≠ Nat.repr t ++ sfx := by
  have hu : '_' ∈ sfx.data := by rcases hs with rfl | rfl <;> decide
  have hlen : sfx.data.length = 4 := by rcases hs with rfl | rfl <;> decide
  rcases h with ⟨t', ht', hi | hi | hi⟩ | hi
  · subst hi
    exact repr_ne_append_underscore t' t sfx hu
  · subst hi
    intro he
    obtain ⟨h1, _⟩ := string_append_inj he (by rw [hlen]; decide)
    exact absurd (repr_inj h1) (by omega)
  · subst hi
    intro he
    obtain ⟨h1, _⟩ := string_append_inj he (by rw [hlen]; decide)
    exact absurd (repr_inj h1) (by omega)
  · subst hi
    intro he
    exact string_ne_append_of_ne_empty (Nat.repr t) sfx
      (by rcases hs with rfl | rfl <;> decide) he

theorem nodup_ids_append {ms : List Message} {m : Message}
    (h : (ms.map Message.id).Nodup) (hm : ∀ m' ∈ ms, m'.id ≠ m.id) :
    ((ms ++ [m]).map Message.id).Nodup := by
  rw [List.map_append]
  refine h.append (List.nodup_singleton _) ?_
  intro i hi hj
  rw [List.mem_map] at hi
  obtain ⟨m', hm', rfl⟩ := hi
  rw [List.map_singleton, List.mem_singleton] at hj
  exact hm m' hm' hj

theorem idInv_step_sendStart {s : SysState} {T now : Nat} (hle : T ≤ now)
    (h : IdInv s T) : IdInv (stepA (.sendStart now) s) (now + 1) := by
  obtain ⟨h1, h2⟩ := h
  cases hs : handleSendStart s.app now with
  | none =>
    rw [stepA_sendStart_of_none hs]
    constructor
    · exact fun c hc => chatMsgsOk_mono (h1 c hc) (by omega)
    · intro ctx hctx
      obtain ⟨t, ht, hmsg, hcond⟩ := h2 ctx hctx
      exact ⟨t, by omega, hmsg, hcond⟩
  | some p =>
    obtain ⟨a', ctx⟩ := p
    obtain ⟨hact, hneid, htrim, hload, hmsg, hsent, ha⟩ := handleSendStart_some hs
    rw [stepA_sendStart_of_some hs, ha]
    constructor
    · show ∀ c ∈ updateChat ctx.chatId
        (fun ms => ms ++ [(⟨Nat.repr now, jsTrim s.app.message, .user, now⟩ : Message)]) s.app.chats,
        ChatMsgsOk (now + 1) c
      intro c' hc'
      rcases mem_updateChat hc' with ⟨c, hc, rfl⟩ | hc'
      · obtain ⟨hnd, hok⟩ := h1 c hc
        constructor
        · show ((c.messages ++ [(⟨Nat.repr now, jsTrim s.app.message, .user, now⟩ : Message)]).map
            Message.id).Nodup
          refine nodup_ids_append hnd ?_
          intro m' hm' he
          exact msgIdOk_ne_repr (hok m' hm') hle he
        · intro m hm
          rcases List.mem_append.1 hm with hm | hm
          · exact msgIdOk_mono (hok m hm) (by omega)
          · rw [List.mem_singleton] at hm
            subst hm
            exact ⟨now, by omega, Or.inl rfl⟩
      · exact chatMsgsOk_mono (h1 c' hc') (by omega)
    · intro ctx' hctx'
      have h' : some ctx = some ctx' := hctx'
      injection h' with h''
      subst h''
      refine ⟨now, by omega, hmsg, ?_⟩
      intro c' hc' m hm
      have hc'' : c' ∈ updateChat ctx.chatId
          (fun ms => ms ++ [(⟨Nat.repr now, jsTrim s.app.message, .user, now⟩ : Message)]) s.app.chats := hc'
      rcases mem_updateChat hc'' with ⟨c, hc, rfl⟩ | hcc
      · rcases List.mem_append.1 hm with hm' | hm'
        · exact Or.inl (msgIdOk_mono ((h1 c hc).2 m hm') hle)
        · rw [List.mem_singleton] at hm'
          subst hm'
          exact Or.inr rfl
      · exact Or.inl (msgIdOk_mono ((h1 c' hcc).2 m hm) hle)

theorem idInv_step_sendFinish {s : SysState} {T : Nat} (o : FetchOutcome) (now : Nat)
    (h : IdInv s T) : IdInv (stepA (.sendFinish o now) s) T := by
  obtain ⟨h1, h2⟩ := h
  cases hin : s.inflight with
  | none =>
    rw [stepA_sendFinish_of_none hin]
    exact ⟨h1, h2⟩
  | some ctx =>
    obtain ⟨t, ht, hmsg, hcond⟩ := h2 ctx hin
    rw [stepA_sendFinish_of_some hin]
    have hsfx : ∃ sfx, (sfx = "_bot" ∨ sfx = "_err") ∧
        (finishMsg ctx (sendToWatson o) now).id = Nat.repr t ++ sfx := by
      cases sendToWatson o with
      | ok reply => exact ⟨"_bot", Or.inl rfl, by rw [show (finishMsg ctx (.ok reply) now).id = ctx.msgId ++ "_bot" from rfl, hmsg]⟩
      | error m => exact ⟨"_err", Or.inr rfl, by rw [show (finishMsg ctx (.error m) now).id = ctx.msgId ++ "_err" from rfl, hmsg]⟩
    obtain ⟨sfx, hsv, hbid⟩ := hsfx
    constructor
    · show ∀ c ∈ (handleSendFinish ctx (sendToWatson o) s.app now).chats, ChatMsgsOk T c
      rw [handleSendFinish_chats]
      intro c' hc'
      rcases mem_updateChat hc' with ⟨c, hc, rfl⟩ | hc'
      · obtain ⟨hnd, hok⟩ := h1 c hc
        constructor
        · show ((c.messages ++ [finishMsg ctx (sendToWatson o) now]).map Message.id).Nodup
          refine nodup_ids_append hnd ?_
          intro m' hm' he
          have := bot_id_fresh hsv (hcond c hc m' hm')
          rw [← hbid] at this
          exact this he
        · intro m hm
          rcases List.mem_append.1 hm with hm | hm
          · exact hok m hm
          · rw [List.mem_singleton] at hm
            subst hm
            rw [hbid]
            rcases hsv with rfl | rfl
            · exact ⟨t, ht, Or.inr (Or.inl rfl)⟩
            · exact ⟨t, ht, Or.inr (Or.inr rfl)⟩
      · exact h1 c' hc'
    · intro ctx' hctx'
      cases hctx'

theorem idInv_other_steps (s : SysState) (T : Nat) (h : IdInv s T) :
    (∀ now, IdInv (stepA (.ensureDefault now) s) T) ∧
    (∀ cid, IdInv (stepA (.clickChat cid) s) T) ∧
    IdInv (stepA .clearChat s) T ∧
    (∀ t, IdInv (stepA (.typeMessage t) s) T) ∧
    (∀ o, IdInv (stepA (.healthResolve o) s) T) := by
  obtain ⟨h1, h2⟩ := h
  refine ⟨?_, ?_, ?_, ?_, ?_⟩
  · intro now
    rw [stepA_ensureDefault]
    by_cases hch : s.app.chats = []
    · rw [ensureDefaultChat_of_empty hch]
      constructor
      · intro c hc
        rw [List.mem_singleton] at hc
        subst hc
        exact ⟨List.nodup_nil, fun m hm => absurd hm (List.not_mem_nil m)⟩
      · intro ctx hctx
        obtain ⟨t, ht, hmsg, _⟩ := h2 ctx hctx
        refine ⟨t, ht, hmsg, ?_⟩
        intro c hc m hm
        rw [List.mem_singleton] at hc
        subst hc
        exact absurd hm (List.not_mem_nil m)
    · rw [ensureDefaultChat_of_nonempty hch]
      exact ⟨h1, h2⟩
  · intro cid
    rw [stepA_clickChat]
    cases hany : s.app.chats.any (fun c => c.id == cid) with
    | false => rw [clickChat_of_not_any hany]; exact ⟨h1, h2⟩
    | true => rw [clickChat_of_any hany]; exact ⟨h1, h2⟩
  · rw [stepA_clearChat]
    cases hact : s.app.activeChatId with
    | none => rw [handleClearChat_of_none hact]; exact ⟨h1, h2⟩
    | some cid =>
      by_cases hcid : cid = ""
      · subst hcid
        rw [handleClearChat_of_falsy hact]
        exact ⟨h1, h2⟩
      · rw [handleClearChat_of_active hact hcid]
        constructor
        · show ∀ c ∈ updateChat cid (fun _ => []) s.app.chats, ChatMsgsOk T c
          intro c' hc'
          rcases mem_updateChat hc' with ⟨c, hc, rfl⟩ | hc'
          · exact ⟨List.nodup_nil, fun m hm => absurd hm (List.not_mem_nil m)⟩
          · exact h1 c' hc'
        · intro ctx hctx
          obtain ⟨t, ht, hmsg, hcond⟩ := h2 ctx hctx
          refine ⟨t, ht, hmsg, ?_⟩
          show ∀ c ∈ updateChat cid (fun _ => []) s.app.chats, _
          intro c' hc' m hm
          rcases mem_updateChat hc' with ⟨c, hc, rfl⟩ | hc'
          · exact absurd hm (List.not_mem_nil m)
          · exact hcond c' hc' m hm
  · intro t
    rw [stepA_typeMessage]
    cases hen : ((s.app.chats.any fun c => some c.id == s.app.activeChatId) && !s.app.loading) with
    | false => rw [typeMessage_of_disabled hen]; exact ⟨h1, h2⟩
    | true => rw [typeMessage_of_enabled hen]; exact ⟨h1, h2⟩
  · intro o
    rw [stepA_healthResolve]
    exact ⟨h1, h2⟩

theorem treach_idInv {s : SysState} {T : Nat} (h : TReach s T) : IdInv s T := by
  induction h with
  | init =>
    constructor
    · intro c hc; exact absurd hc (List.not_mem_nil c)
    · intro ctx hctx; cases hctx
  | ensureDefault now _ ih => exact (idInv_other_steps _ _ ih).1 now
  | clickChat cid _ ih => exact (idInv_other_steps _ _ ih).2.1 cid
  | clearChat _ ih => exact (idInv_other_steps _ _ ih).2.2.1
  | typeMessage t _ ih => exact (idInv_other_steps _ _ ih).2.2.2.1 t
  | sendStart now _ hle ih => exact idInv_step_sendStart hle ih
  | sendFinish o now _ ih => exact idInv_step_sendFinish o now ih
  | healthResolve o _ ih => exact (idInv_other_steps _ _ ih).2.2.2.2 o

/-! ## The two whole-dispatch shapes -/

theorem handleSendStart_of {s : AppState} {cid : String} (now : Nat)
    (hact : s.activeChatId = some cid) (hcid : cid ≠ "")
    (htrim : jsTrim s.message ≠ "") (hload : s.loading = false) :
    handleSendStart s now =
      some
        ({ s with
            chats := appendMessage cid
              (⟨Nat.repr now, jsTrim s.message, .user, now⟩ : Message) s.chats
            message := ""
            loading := true
            error := none },
         ⟨cid, Nat.repr now, jsTrim s.message⟩) := by
  simp [handleSendStart, hact, htrim, hload, hcid]

theorem appendMessage_appendMessage (cid : String) (m1 m2 : Message) (l : List Chat) :
    appendMessage cid m2 (appendMessage cid m1 l) =
      l.map fun c =>
        if c.id == cid then { c with messages := c.messages ++ [m1, m2] } else c := by
  simp only [appendMessage, updateChat, List.map_map]
  apply List.map_congr_left
  intro c _
  by_cases h : c.id = cid
  · simp [h, List.append_assoc]
  · simp [h]

theorem handleSendFinish_ok (ctx : DispatchCtx) (reply : String) (s : AppState) (now : Nat) :
    handleSendFinish ctx (.ok reply) s now =
      { s with
          chats := appendMessage ctx.chatId
            (⟨ctx.msgId ++ "_bot", reply, .bot, now⟩ : Message) s.chats
          loading := false } := rfl

theorem handleSendFinish_error (ctx : DispatchCtx) (m : String) (s : AppState) (now : Nat) :
    handleSendFinish ctx (.error m) s now =
      { s with
          error := some m
          chats := appendMessage ctx.chatId
            (⟨ctx.msgId ++ "_err", "⚠️ " ++ m, .bot, now⟩ : Message) s.chats
          loading := false } := rfl

/-- A whole uninterfered dispatch whose network call succeeds. -/
theorem handleSend_success {s : AppState} {cid : String} (now1 now2 : Nat)
    (detail : Option String) (reply : String)
    (hact : s.activeChatId = some cid) (hcid : cid ≠ "")
    (htrim : jsTrim s.message ≠ "") (hload : s.loading = false) :
    handleSend s now1 (.response true detail reply) now2 =
      { s with
          chats := s.chats.map fun c =>
            if c.id == cid then
              { c with messages := c.messages ++
                  [⟨Nat.repr now1, jsTrim s.message, .user, now1⟩,
                   ⟨Nat.repr now1 ++ "_bot", reply, .bot, now2⟩] }
            else c
          message := ""
          loading := false
          error := none } := by
  unfold handleSend
  rw [handleSendStart_of now1 hact hcid htrim hload]
  show handleSendFinish ⟨cid, Nat.repr now1, jsTrim s.message⟩ (.ok reply) _ now2 = _
  rw [handleSendFinish_ok]
  show ({ s with
      chats := appendMessage cid (⟨Nat.repr now1 ++ "_bot", reply, .bot, now2⟩ : Message)
        (appendMessage cid (⟨Nat.repr now1, jsTrim s.message, .user, now1⟩ : Message) s.chats)
      message := ""
      loading := false
      error := none } : AppState) = _
  rw [appendMessage_appendMessage]

/-- A whole uninterfered dispatch whose network call fails with reason `r`. -/
theorem handleSend_failure {s : AppState} {cid : String} (now1 now2 : Nat)
    {o : FetchOutcome} {r : String}
    (hact : s.activeChatId = some cid) (hcid : cid ≠ "")
    (htrim : jsTrim s.message ≠ "") (hload : s.loading = false)
    (hr : sendToWatson o = .error r) :
    handleSend s now1 o now2 =
      { s with
          chats := s.chats.map fun c =>
            if c.id == cid then
              { c with messages := c.messages ++
                  [⟨Nat.repr now1, jsTrim s.message, .user, now1⟩,
                   ⟨Nat.repr now1 ++ "_err", "⚠️ " ++ r, .bot, now2⟩] }
            else c
          message := ""
          loading := false
          error := some r } := by
  unfold handleSend
  rw [handleSendStart_of now1 hact hcid htrim hload, hr]
  show handleSendFinish ⟨cid, Nat.repr now1, jsTrim s.message⟩ (.error r) _ now2 = _
  rw [handleSendFinish_error]
  show ({ s with
      chats := appendMessage cid (⟨Nat.repr now1 ++ "_err", "⚠️ " ++ r, .bot, now2⟩ : Message)
        (appendMessage cid (⟨Nat.repr now1, jsTrim s.message, .user, now1⟩ : Message) s.chats)
      message := ""
      loading := false
      error := some r } : AppState) = _
  rw [appendMessage_appendMessage]

/-! ## Claim theorems -/

/-- Concrete state used to witness C1: one chat, active, non-empty composer,
no dispatch in flight. -/
def c1State : AppState :=
  { chats := [⟨"7", "Chat", [], 7⟩]
    activeChatId := some "7"
    message := "Where should I go in March?"
    loading := false
    error := none
    backendStatus := .ready }

/-- **C1.** A send dispatched from a state whose trimmed composer text is
non-empty, with no dispatch in flight (`loading = false`), and whose
`activeChatId` names an existing chat (reachable active ids are non-empty
decimal strings, hence `cid ≠ ""`), whose remote call succeeds with reply
`reply`, appends exactly two messages to the active chat, in order: first
the user message carrying the trimmed input, then the bot message carrying
the backend reply, whose id is the user message's id suffixed with the fixed
`"_bot"`; every other chat is untouched and `loading` is false afterwards. -/
theorem c1_send_success_appends_user_then_bot
    (s : AppState) (cid : String) (now1 now2 : Nat)
    (detail : Option String) (reply : String)
    (hact : s.activeChatId = some cid) (hcid : cid ≠ "")
    (htrim : jsTrim s.message ≠ "") (hload : s.loading = false)
    (hex : ∃ c ∈ s.chats, c.id = cid) :
    (handleSend s now1 (.response true detail reply) now2).chats =
      (s.chats.map fun c =>
        if c.id == cid then
          { c with messages := c.messages ++
              [⟨Nat.repr now1, jsTrim s.message, .user, now1⟩,
               ⟨Nat.repr now1 ++ "_bot", reply, .bot, now2⟩] }
        else c) ∧
    (handleSend s now1 (.response true detail reply) now2).loading = false ∧
    (handleSend s now1 (.response true detail reply) now2).error = none := by
  rw [handleSend_success now1 now2 detail reply hact hcid htrim hload]
  exact ⟨rfl, rfl, rfl⟩

theorem c1_witness :
    (handleSend c1State 8 (.response true none "Try Kyoto in spring.") 9).chats =
      [⟨"7", "Chat",
        [⟨"8", "Where should I go in March?", .user, 8⟩,
         ⟨"8_bot", "Try Kyoto in spring.", .bot, 9⟩], 7⟩] ∧
    (handleSend c1State 8 (.response true none "Try Kyoto in spring.") 9).loading = false := by
  have h := c1_send_success_appends_user_then_bot c1State "7" 8 9 none "Try Kyoto in spring."
    rfl (by decide) (by decide) rfl ⟨⟨"7", "Chat", [], 7⟩, by decide, rfl⟩
  exact ⟨h.1.trans (by decide), h.2.1⟩

/-- Concrete state used for C2: one chat, active, composer `"hello"`. -/
def c2State : AppState :=
  { chats := [⟨"3", "Chat", [], 3⟩]
    activeChatId := some "3"
    message := "hello"
    loading := false
    error := none
    backendStatus := .ready }

/-- **C2, counterexample.**  The claim says the failure reason of a non-2xx
response is the body's `detail` field, with the `"Request failed"` default
used only when the field is absent.  JavaScript's `detail || 'Request
failed'` also discards a *present but empty* `detail`: with a response
carrying `detail = ""` the claim predicts `lastError = some ""`, but the
code produces `some "Request failed"`. -/
theorem c2_counterexample :
    (handleSend c2State 4 (.response false (some "") "") 5).error = some "Request failed" ∧
    ¬ (handleSend c2State 4 (.response false (some "") "") 5).error = some "" := by
  exact ⟨by decide, by decide⟩

/-- **C2, amended.**  For every send (preconditions as in C1) whose remote
call fails, a user message is appended followed by a bot message whose text
is the error-marked string `"⚠️ " ++ r` embedding the failure reason `r`;
for a non-2xx HTTP response the reason is the body's `detail` field,
defaulting to `"Request failed"` when that field is absent **or empty**;
`lastError` is set to the reason and `loading` is false after completion. -/
theorem c2_send_failure_marks_error
    (s : AppState) (cid : String) (now1 now2 : Nat) (o : FetchOutcome) (r : String)
    (hact : s.activeChatId = some cid) (hcid : cid ≠ "")
    (htrim : jsTrim s.message ≠ "") (hload : s.loading = false)
    (hex : ∃ c ∈ s.chats, c.id = cid)
    (hr : sendToWatson o = .error r) :
    (∀ d rep, sendToWatson (.response false d rep) = .error (jsOr d "Request failed")) ∧
    (handleSend s now1 o now2).chats =
      (s.chats.map fun c =>
        if c.id == cid then
          { c with messages := c.messages ++
              [⟨Nat.repr now1, jsTrim s.message, .user, now1⟩,
               ⟨Nat.repr now1 ++ "_err", "⚠️ " ++ r, .bot, now2⟩] }
        else c) ∧
    (handleSend s now1 o now2).error = some r ∧
    (handleSend s now1 o now2).loading = false := by
  rw [handleSend_failure now1 now2 hact hcid htrim hload hr]
  exact ⟨fun d rep => rfl, rfl, rfl, rfl⟩

theorem c2_witness :
    (handleSend c2State 4 (.response false (some "rate limited") "") 5).chats =
      [⟨"3", "Chat",
        [⟨"4", "hello", .user, 4⟩,
         ⟨"4_err", "⚠️ rate limited", .bot, 5⟩], 3⟩] ∧
    (handleSend c2State 4 (.response false (some "rate limited") "") 5).error =
      some "rate limited" ∧
    (handleSend c2State 4 (.response false (some "rate limited") "") 5).loading = false := by
  have h := c2_send_failure_marks_error c2State "3" 4 5
    (.response false (some "rate limited") "") "rate limited"
    rfl (by decide) (by decide) rfl ⟨⟨"3", "Chat", [], 3⟩, by decide, rfl⟩ rfl
  exact ⟨h.2.1.trans (by decide), h.2.2.1, h.2.2.2⟩

/-- Concrete two-chat state for C3: chat `"1"` is active, a dispatch starts
from it, the user switches to chat `"2"` mid-flight. -/
def c3State : AppState :=
  { chats := [⟨"1", "Chat", [], 1⟩, ⟨"2", "Chat", [], 2⟩]
    activeChatId := some "1"
    message := "hi"
    loading := false
    error := none
    backendStatus := .ready }

/-- **C3.**  The `handleSend` continuation closes over the `activeChatId` of
the render that dispatched it (`DispatchCtx.chatId`), so the bot reply (or
error message) is appended to the chat that was active at dispatch start:
even if the active chat is switched to any `cid'` while the request is in
flight, the finish step appends `finishMsg` to the chat captured in the
context, not to the newly active one. -/
theorem c3_reply_targets_dispatch_chat
    (s s1 : AppState) (ctx : DispatchCtx) (cid cid' : String)
    (now1 now2 : Nat) (o : FetchOutcome)
    (hact : s.activeChatId = some cid)
    (hstart : handleSendStart s now1 = some (s1, ctx)) :
    ctx.chatId = cid ∧
    (handleSendFinish ctx (sendToWatson o) (clickChat s1 cid') now2).chats =
      appendMessage cid (finishMsg ctx (sendToWatson o) now2) (clickChat s1 cid').chats := by
  obtain ⟨hact', _, _, _, _, _, _⟩ := handleSendStart_some hstart
  have hcid : ctx.chatId = cid := by
    rw [hact] at hact'
    exact (Option.some.injEq cid ctx.chatId ▸ hact').symm
  refine ⟨hcid, ?_⟩
  rw [handleSendFinish_chats, hcid]

theorem c3_witness :
    (handleSendFinish ⟨"1", "5", "hi"⟩
        (sendToWatson (.response true none "sure")) (clickChat
          { chats := [⟨"1", "Chat", [⟨"5", "hi", .user, 5⟩], 1⟩, ⟨"2", "Chat", [], 2⟩]
            activeChatId := some "1"
            message := ""
            loading := true
            error := none
            backendStatus := .ready } "2") 6).chats =
      [⟨"1", "Chat", [⟨"5", "hi", .user, 5⟩, ⟨"5_bot", "sure", .bot, 6⟩], 1⟩,
       ⟨"2", "Chat", [], 2⟩] := by
  have h := c3_reply_targets_dispatch_chat c3State
    { chats := [⟨"1", "Chat", [⟨"5", "hi", .user, 5⟩], 1⟩, ⟨"2", "Chat", [], 2⟩]
      activeChatId := some "1"
      message := ""
      loading := true
      error := none
      backendStatus := .ready }
    ⟨"1", "5", "hi"⟩ "1" "2" 5 6 (.response true none "sure") rfl (by decide)
  exact h.2.trans (by decide)

/-- **C4.**  `handleSend` is a no-op whenever a precondition fails: if the
trimmed composer text is empty, or a dispatch is already in flight
(`loading`), or no active chat exists (in a reachable state this is exactly
`activeChatId = none`, by the `ActiveOk` invariant), then the guard fires
(`handleSendStart = none`, so no network request is issued) and the whole
dispatch returns the state unchanged for every conceivable outcome — in
particular no chat's message count changes and no error is surfaced. -/
theorem c4_send_noop_on_violated_preconditions
    (s : SysState) (hr : Reachable s)
    (h : jsTrim s.app.message = "" ∨ s.app.loading = true ∨
         ¬ ∃ c ∈ s.app.chats, s.app.activeChatId = some c.id) :
    (∀ now, handleSendStart s.app now = none) ∧
    (∀ now1 o now2, handleSend s.app now1 o now2 = s.app) := by
  have key : ∀ now, handleSendStart s.app now = none := by
    intro now
    rcases h with h | h | h
    · exact handleSendStart_none (Or.inl h)
    · exact handleSendStart_none (Or.inr (Or.inl h))
    · obtain ⟨h1, h2⟩ := reachable_activeOk hr
      by_cases hch : s.app.chats = []
      · exact handleSendStart_none (Or.inr (Or.inr (Or.inl (h1 hch))))
      · exact absurd (h2 hch) h
  refine ⟨key, ?_⟩
  intro now1 o now2
  unfold handleSend
  rw [key now1]

theorem c4_witness :
    handleSendStart initialState 3 = none ∧
    handleSend initialState 3 (.response true none "yo") 4 = initialState :=
  ⟨(c4_send_noop_on_violated_preconditions initSys Reachable.init (Or.inl (by decide))).1 3,
   (c4_send_noop_on_violated_preconditions initSys Reachable.init
     (Or.inl (by decide))).2 3 (.response true none "yo") 4⟩

/-- **C5.**  In every reachable state, `loading` (the spec's `isSending`) is
true exactly while a dispatch continuation is pending; issuing a send while
it is true is a no-op (the guard fires and the system state is unchanged)
regardless of what the in-flight call will return, and completing a dispatch
(success or failure) always leaves `loading` false.  Hence at most one
dispatch is in flight and user/bot pairs from distinct dispatches cannot
interleave. -/
theorem c5_single_dispatch_in_flight (s : SysState) (hr : Reachable s) :
    (s.app.loading = true ↔ s.inflight ≠ none) ∧
    (s.app.loading = true →
      ∀ now, handleSendStart s.app now = none ∧ stepA (.sendStart now) s = s) ∧
    (∀ o now, (stepA (.sendFinish o now) s).app.loading = false) := by
  have hld := reachable_loadOk hr
  refine ⟨?_, ?_, ?_⟩
  · rw [hld]
    exact Option.isSome_iff_ne_none
  · intro hl now
    have h1 : handleSendStart s.app now = none := handleSendStart_none (Or.inr (Or.inl hl))
    exact ⟨h1, stepA_sendStart_of_none h1⟩
  · intro o now
    cases hin : s.inflight with
    | none =>
      rw [stepA_sendFinish_of_none hin, hld, hin]
      rfl
    | some ctx =>
      rw [stepA_sendFinish_of_some hin]
      show (handleSendFinish ctx (sendToWatson o) s.app now).loading = false
      exact handleSendFinish_loading ctx (sendToWatson o) s.app now

/-- Reachable state with a dispatch in flight, for the C5 witness. -/
def c5State : SysState :=
  stepA (.sendStart 7) (stepA (.typeMessage "hi") (stepA (.ensureDefault 1) initSys))

theorem c5_witness :
    (c5State.app.loading = true ↔ c5State.inflight ≠ none) ∧
    handleSendStart c5State.app 9 = none ∧
    stepA (.sendStart 9) c5State = c5State ∧
    (stepA (.sendFinish (.response true none "ok") 9) c5State).app.loading = false := by
  have h := c5_single_dispatch_in_flight c5State
    (Reachable.step (.sendStart 7) (Reachable.step (.typeMessage "hi")
      (Reachable.step (.ensureDefault 1) Reachable.init)))
  have h2 := h.2.1 (by decide) 9
  exact ⟨h.1, h2.1, h2.2, h.2.2 (.response true none "ok") 9⟩

/-- **C6, counterexample.**  The claim says the synthesized default chat has
an *empty* title; the code sets the constant title `'Chat'`.  At the startup
input (empty collection, clock 0) the synthesized chat's title is `"Chat"`,
not `""`. -/
theorem c6_counterexample :
    (ensureDefaultChat initialState 0).chats.map Chat.title = ["Chat"] ∧
    ¬ (ensureDefaultChat initialState 0).chats.map Chat.title = [""] :=
  ⟨by decide, by decide⟩

/-- **C6, amended.**  Whenever the chat collection is empty, exactly one
default chat is synthesized — with the generated id `Nat.repr now` (the
`Date.now().toString()` value), the default title `"Chat"` (not an empty
title), an empty message log, and creation timestamp `now` — and it is made
active; so after initialization from an empty collection exactly one chat
exists and it is the active one. -/
theorem c6_default_chat_synthesized (s : AppState) (now : Nat) (h : s.chats = []) :
    ensureDefaultChat s now =
      { s with
          chats := [{ id := Nat.repr now, title := "Chat", messages := [], createdAt := now }]
          activeChatId := some (Nat.repr now) } ∧
    (ensureDefaultChat s now).chats.length = 1 ∧
    (ensureDefaultChat s now).activeChatId = some (Nat.repr now) := by
  have he := ensureDefaultChat_of_empty h now
  exact ⟨he, by rw [he]; rfl, by rw [he]⟩

theorem c6_witness :
    ensureDefaultChat initialState 42 =
      { initialState with
          chats := [⟨"42", "Chat", [], 42⟩]
          activeChatId := some "42" } ∧
    (ensureDefaultChat initialState 42).chats.length = 1 := by
  have h := c6_default_chat_synthesized initialState 42 rfl
  exact ⟨h.1.trans (by decide), h.2.1⟩

/-- **C7.**  In every reachable state whose chat collection is non-empty,
`activeChatId` names one of the existing chats.  The invariant is preserved
by every operation of the system (`ensureDefaultChat`, the sidebar click,
`handleClearChat`, composer edits, dispatch start and finish, and the health
probe), as established by `activeOk_step`. -/
theorem c7_active_id_references_existing_chat
    (s : SysState) (hr : Reachable s) (hne : s.app.chats ≠ []) :
    ∃ c ∈ s.app.chats, s.app.activeChatId = some c.id :=
  (reachable_activeOk hr).2 hne

def c7State : SysState := stepA (.ensureDefault 1) initSys

theorem c7_witness : ∃ c ∈ c7State.app.chats, c7State.app.activeChatId = some c.id :=
  c7_active_id_references_existing_chat c7State
    (Reachable.step (.ensureDefault 1) Reachable.init) (by decide)

/-- **C8.**  Clearing the active chat (`handleClearChat`, the code's
`clearMessages` of the spec) empties exactly that chat's message sequence
while keeping its `id`, `title` and `createdAt`, deletes no chat (the
collection keeps its length), and leaves every other chat — and the active
pointer — unchanged. -/
theorem c8_clear_messages_empties_only_target
    (s : AppState) (cid : String)
    (hact : s.activeChatId = some cid) (hcid : cid ≠ "") :
    (handleClearChat s).chats =
      (s.chats.map fun c => if c.id == cid then { c with messages := [] } else c) ∧
    (handleClearChat s).chats.length = s.chats.length ∧
    (handleClearChat s).activeChatId = s.activeChatId := by
  rw [handleClearChat_of_active hact hcid]
  refine ⟨rfl, ?_, rfl⟩
  show (updateChat cid (fun _ => []) s.chats).length = s.chats.length
  exact updateChat_length cid (fun _ => []) s.chats

def c8State : AppState :=
  { chats := [⟨"1", "A", [⟨"5", "x", .user, 5⟩], 1⟩, ⟨"2", "B", [⟨"6", "y", .user, 6⟩], 2⟩]
    activeChatId := some "1"
    message := ""
    loading := false
    error := none
    backendStatus := .ready }

theorem c8_witness :
    (handleClearChat c8State).chats =
      [⟨"1", "A", [], 1⟩, ⟨"2", "B", [⟨"6", "y", .user, 6⟩], 2⟩] ∧
    (handleClearChat c8State).chats.length = c8State.chats.length := by
  have h := c8_clear_messages_empties_only_target c8State "1" rfl (by decide)
  exact ⟨h.1.trans (by decide), h.2.1⟩

/-- **C9.**  The health monitor starts in `checking` (the initial
`useState`), and its single probe (`checkBackendHealth` consumes exactly one
outcome; the `useEffect` with empty dependency array issues it once, with no
retry loop) yields `ready` exactly on a 2xx response whose body has a truthy
`api_ready`, and `error` on a 2xx response without that indication, on any
non-2xx response, and on a thrown network failure. -/
theorem c9_health_monitor_transitions :
    initialState.backendStatus = .checking ∧
    (∀ r : Bool, checkBackendHealth (.response true r) = if r then .ready else .error) ∧
    (∀ r : Bool, checkBackendHealth (.response false r) = .error) ∧
    checkBackendHealth .thrown = .error := by
  refine ⟨rfl, ?_, ?_, rfl⟩
  · intro r; cases r <;> rfl
  · intro r; cases r <;> rfl

/-- Per-chat lists of message ids of a system state (binder-free accessor
for the C10 statements). -/
def chatIdLists (s : SysState) : List (List String) :=
  s.app.chats.map fun c => c.messages.map Message.id

/-- A reachable run in which two complete dispatches both read
`Date.now() = 7`: ids collide. -/
def c10BadState : SysState :=
  stepA (.sendFinish (.response true none "B") 7)
    (stepA (.sendStart 7)
      (stepA (.typeMessage "hi")
        (stepA (.sendFinish (.response true none "A") 7)
          (stepA (.sendStart 7)
            (stepA (.typeMessage "hi")
              (stepA (.ensureDefault 1) initSys))))))

/-- **C10, counterexample.**  Ids are minted from `Date.now()`, so two
dispatches that complete within the same millisecond mint the same user id
(and hence the same suffixed bot id).  The reachable run `c10BadState` —
two sends both observing clock value 7 — leaves the single chat with the id
sequence `["7", "7_bot", "7", "7_bot"]`, which is not duplicate-free. -/
theorem c10_counterexample :
    Reachable c10BadState ∧
    chatIdLists c10BadState = [["7", "7_bot", "7", "7_bot"]] ∧
    ¬ (["7", "7_bot", "7", "7_bot"] : List String).Nodup := by
  refine ⟨?_, by decide, by decide⟩
  exact Reachable.step (.sendFinish (.response true none "B") 7)
    (Reachable.step (.sendStart 7)
      (Reachable.step (.typeMessage "hi")
        (Reachable.step (.sendFinish (.response true none "A") 7)
          (Reachable.step (.sendStart 7)
            (Reachable.step (.typeMessage "hi")
              (Reachable.step (.ensureDefault 1) Reachable.init))))))

/-- **C10, amended.**  Message ids are unique within every chat in every
state reachable by runs whose dispatches observe strictly increasing
`Date.now()` values (the `TReach` relation: each dispatch start reads a
clock value at least the current bound, which then moves past it).  With
repeating clock values uniqueness fails (`c10_counterexample`). -/
theorem c10_message_ids_unique (s : SysState) (T : Nat) (h : TReach s T)
    (c : Chat) (hc : c ∈ s.app.chats) : (c.messages.map Message.id).Nodup :=
  ((treach_idInv h).1 c hc).1

/-- The same two-dispatch run as `c10BadState` but with fresh clock values
3, 7, 8, 9. -/
def c10GoodState : SysState :=
  stepA (.sendFinish (.response true none "B") 9)
    (stepA (.sendStart 8)
      (stepA (.typeMessage "hi")
        (stepA (.sendFinish (.response true none "A") 7)
          (stepA (.sendStart 3)
            (stepA (.typeMessage "hi")
              (stepA (.ensureDefault 1) initSys))))))

theorem c10_witness :
    ((⟨"1", "Chat",
        [⟨"3", "hi", .user, 3⟩, ⟨"3_bot", "A", .bot, 7⟩,
         ⟨"8", "hi", .user, 8⟩, ⟨"8_bot", "B", .bot, 9⟩], 1⟩ : Chat).messages.map
      Message.id).Nodup := by
  have ht : TReach c10GoodState 9 :=
    TReach.sendFinish (.response true none "B") 9
      (TReach.sendStart 8
        (TReach.typeMessage "hi"
          (TReach.sendFinish (.response true none "A") 7
            (TReach.sendStart 3
              (TReach.typeMessage "hi"
                (TReach.ensureDefault 1 TReach.init))
              (by omega))))
        (by omega))
  exact c10_message_ids_unique c10GoodState 9 ht
    ⟨"1", "Chat",
      [⟨"3", "hi", .user, 3⟩, ⟨"3_bot", "A", .bot, 7⟩,
       ⟨"8", "hi", .user, 8⟩, ⟨"8_bot", "B", .bot, 9⟩], 1⟩ (by decide)
